import Mathlib

/-!
Verification of `modules/cache.py` from the stable-diffusion-webui repository.

The module implements a process-wide, persistent key-value cache keyed by
(subsection, title), invalidated by file modification time, with two
persistence backends (a JSON snapshot file and a sqlite table store) and a
debounced background flush thread.

The shallow embedding below translates the module into pure Lean functions
over an explicit state record.  Cached values have an abstract type `V`
(the code stores arbitrary JSON-serializable data); JSON and sqlite
serialization are external library calls and are modelled at their
interface as faithful (injective) encodings, so the database row stores the
value itself.  File modification times are modelled as rationals (the code
uses float64 seconds and only ever compares them for equality).  Python
dicts become association lists; Python exceptions become `Except` results.
-/

namespace WebuiCache

/-- A cached entry: the Python dict `{'mtime': ..., 'value': ...}`.
Either key may be absent (entries can come from a hand-edited JSON file),
so both fields are `Option`s; `none` models an absent key. -/
structure CEntry (V : Type) where
  mtime : Option ℚ
  value : Option V
deriving DecidableEq, Repr

/-- Python truthiness of an entry dict: a dict is truthy iff it is
non-empty, i.e. at least one of the two keys is present. -/
def CEntry.truthy {V : Type} (e : CEntry V) : Bool :=
  e.mtime.isSome || e.value.isSome

/-- Lookup in a Python dict modelled as an association list
(first match; at most one match under the no-duplicate-keys invariant). -/
def alookup {α : Type} : List (String × α) → String → Option α
  | [], _ => none
  | p :: rest, key => if key = p.1 then some p.2 else alookup rest key

/-- `d[key] = v` on a Python dict modelled as an association list:
replace in place when the key is present, append otherwise. -/
def aset {α : Type} (l : List (String × α)) (key : String) (v : α) :
    List (String × α) :=
  if (alookup l key).isSome then
    l.map (fun p => if p.1 = key then (key, v) else p)
  else
    l ++ [(key, v)]

/-- A Section: the per-subsection dict from title to entry. -/
abbrev Section (V : Type) : Type := List (String × CEntry V)

/-- The in-memory store `cache_data`: dict from subsection to Section. -/
abbrev Store (V : Type) : Type := List (String × Section V)

/-- One sqlite row `(path, mtime, value)`; the TEXT value column holds the
JSON encoding of the value, modelled transparently as the value itself. -/
abbrev DBRow (V : Type) : Type := String × ℚ × V

/-- The sqlite database: a list of tables (name, rows), in
`sqlite_master` enumeration order.  Table names are unique and row paths
are unique per table (PRIMARY KEY); both are stated as hypotheses where
needed. -/
abbrev DB (V : Type) : Type := List (String × List (DBRow V))

/-- The sqlite file as seen by `sqlite3.connect`: a working database; one
on which connecting or executing a statement raises (locked file,
malformed database, I/O failure); or one that accepts connections and
statements but raises when a write transaction commits at the `with conn`
exit (e.g. the file turns locked at COMMIT).  In the last mode read-only
and empty transactions commit trivially and succeed, and a failed commit
is not durable: the database contents stay as they were. -/
inductive DBState (V : Type) where
  | ok (db : DB V)
  | failed
  | commitFails (db : DB V)
deriving DecidableEq

/-- Contents of a snapshot file on disk: either a parsable serialized
store, or unparsable bytes (corrupt or partially written). -/
inductive FileData (V : Type) where
  | data (s : Store V)
  | corrupt
deriving DecidableEq

/-- One printed diagnostic / progress message. -/
inductive OutMsg (V : Type) where
  | text (s : String)
  | value (v : Option V)
  | corruptCache
  | dbError
deriving DecidableEq

/-- The global state touched by the module: the `cache_data` singleton,
the debounce flags `dump_cache_after` / `dump_cache_thread`, the sqlite
file, the snapshot file and its temp sibling, the quarantine location
`tmp/cache.json`, the filesystem's modification times, everything printed,
and an instrumentation counter of how many times a caller-supplied compute
function was invoked. -/
structure St (V : Type) where
  cacheData : Option (Store V)
  dumpAfter : Option ℚ
  dumpRunning : Bool
  db : DBState V
  snapFile : Option (FileData V)
  tmpFile : Option (FileData V)
  quarantine : Option (FileData V)
  mtimes : String → Option ℚ
  out : List (OutMsg V)
  funcCalls : ℕ

/-- Python exceptions that escape the module. -/
inductive PyErr where
  | fileAccess (filename : String)
  | funcRaised
deriving DecidableEq

instance {ε α : Type} [DecidableEq ε] [DecidableEq α] :
    DecidableEq (Except ε α) := fun x y =>
  match x, y with
  | .ok a, .ok b =>
      if h : a = b then isTrue (by rw [h])
      else isFalse (by intro hh; cases hh; exact h rfl)
  | .ok _, .error _ => isFalse (by intro hh; cases hh)
  | .error _, .ok _ => isFalse (by intro hh; cases hh)
  | .error e, .error f =>
      if h : e = f then isTrue (by rw [h])
      else isFalse (by intro hh; cases hh; exact h rfl)

/-- Build a Section from the rows of one table:
`{row[0]: {"mtime": row[1], "value": json.loads(row[2])} for row in table_data}`
(dict comprehension: later rows overwrite earlier ones). -/
def rowsToSection {V : Type} (rows : List (DBRow V)) : Section V :=
  rows.foldl (fun s r => aset s r.1 ⟨some r.2.1, some r.2.2⟩) []

/-- Build the whole store from the database:
`database_dict[table_name] = {...}` for each table. -/
def dbToStore {V : Type} (db : DB V) : Store V :=
  db.foldl (fun st t => aset st t.1 (rowsToSection t.2)) []

/-- `cache_db_to_dict` (lines 20-32): read every table of the database
into a dict of dicts; on any exception print it and return `{}`.
Returns the store together with the diagnostics printed. -/
def cache_db_to_dict {V : Type} : DBState V → Store V × List (OutMsg V)
  | .ok db => (dbToStore db, [])
  | .commitFails db => (dbToStore db, [])
  | .failed => ([], [OutMsg.dbError])

/-- `CREATE TABLE IF NOT EXISTS` for a subsection (line 90-91). -/
def createTable {V : Type} (db : DB V) (sub : String) : DB V :=
  if (alookup db sub).isSome then db else db ++ [(sub, [])]

/-- `INSERT OR REPLACE INTO subsection (path, mtime, value)` (lines
163-164).  Returns `none` when the table does not exist, in which case
sqlite raises `OperationalError` (caught by the caller). -/
def dbUpsert {V : Type} (db : DB V) (sub title : String) (m : ℚ) (v : V) :
    Option (DB V) :=
  match alookup db sub with
  | none => none
  | some rows => some (aset db sub (aset rows title (m, v)))

/-- `dump_cache` (lines 35-64), the `markDirty` entry point: under the
lock, set `dump_cache_after = time.time() + 5` and start the writer thread
if none is running.  The thread body itself is modelled by the event
system `dstep` below and by `flushStates`. -/
def dump_cache {V : Type} (now : ℚ) (st : St V) : St V :=
  { st with dumpAfter := some (now + 5), dumpRunning := true }

/-- Lazy snapshot load (lines 97-110): if the canonical file is absent
start empty; if parsable load it; otherwise move the corrupt file to
`tmp/cache.json`, print an error, and start empty. -/
def loadSnapshot {V : Type} (st : St V) : St V :=
  match st.snapFile with
  | none => { st with cacheData := some [] }
  | some (.data s) => { st with cacheData := some s }
  | some .corrupt =>
      { st with cacheData := some [],
                quarantine := st.snapFile,
                snapFile := none,
                out := st.out ++ [OutMsg.corruptCache] }

/-- `cache(subsection)` (lines 67-115): retrieve or initialize the
subsection's dict, lazily loading the store from the active backend.
`useSqlite` is `shared.opts.experimental_sqlite_cache`.  Returns the
section handle together with the updated state. -/
def cacheFn {V : Type} (useSqlite : Bool) (sub : String) (st : St V) :
    Section V × St V :=
  if useSqlite then
    let st1 :=
      if st.cacheData.isNone then
        let loaded := cache_db_to_dict st.db
        { st with cacheData := some loaded.1, out := st.out ++ loaded.2 }
      else st
    let store := st1.cacheData.getD []
    let s := (alookup store sub).getD []
    let st2 :=
      if s.isEmpty then
        match st1.db with
        | .ok db => { st1 with db := .ok (createTable db sub) }
        | .failed => { st1 with out := st1.out ++ [OutMsg.dbError] }
        | .commitFails db =>
            -- `CREATE TABLE IF NOT EXISTS` on an existing table writes
            -- nothing, so the commit trivially succeeds; creating a new
            -- table is a schema write whose commit raises (caught at
            -- line 92, printed, not durable).
            if (alookup db sub).isSome then st1
            else { st1 with out := st1.out ++ [OutMsg.dbError] }
      else st1
    (s, { st2 with cacheData := some (aset (st2.cacheData.getD []) sub s) })
  else
    let st1 := if st.cacheData.isNone then loadSnapshot st else st
    let store := st1.cacheData.getD []
    let s := (alookup store sub).getD []
    (s, { st1 with cacheData := some (aset store sub s) })

/-- Lines 144-148: `entry = existing_cache.get(title)`, then if the entry
dict is truthy compare `entry.get("mtime", 0)` with the on-disk mtime and
set `entry = None` on mismatch. -/
def validateEntry {V : Type} (ondisk : ℚ) :
    Option (CEntry V) → Option (CEntry V)
  | none => none
  | some e =>
      if e.truthy then
        (if ondisk ≠ e.mtime.getD 0 then none else some e)
      else some e

/-- Line 150: `if not entry or 'value' not in entry`. -/
def missCond {V : Type} : Option (CEntry V) → Bool
  | none => true
  | some e => !e.truthy || e.value.isNone

/-- Lines 150-174: the cache-miss path of `cached_data_for_file`: print
the optional progress marker, call `func` (counted by `funcCalls`), print
its result, bail out on the `None` sentinel, then persist through the
active backend (immediate row upsert for sqlite, in-memory write plus
`dump_cache()` for the snapshot backend). -/
def missPath {V : Type} (useSqlite : Bool) (now : ℚ) (sub title : String)
    (func : Except Unit (Option V)) (funcMessage : Option String)
    (ondisk : ℚ) (sec : Section V) (st : St V) :
    Except PyErr (Option V) × St V :=
  let st1 :=
    match funcMessage with
    | some m => { st with out := st.out ++ [OutMsg.text m] }
    | none => st
  let st2 := { st1 with funcCalls := st1.funcCalls + 1 }
  match func with
  | .error _ => (.error .funcRaised, st2)
  | .ok value =>
    let st3 :=
      match funcMessage with
      | some _ => { st2 with out := st2.out ++ [OutMsg.value value] }
      | none => st2
    match value with
    | none => (.ok none, st3)
    | some v =>
      if useSqlite then
        match st3.db with
        | .failed => (.ok none, { st3 with out := st3.out ++ [OutMsg.dbError] })
        | .ok db =>
          match dbUpsert db sub title ondisk v with
          | none => (.ok none, { st3 with out := st3.out ++ [OutMsg.dbError] })
          | some db' =>
            let sec' := aset sec title ⟨some ondisk, some v⟩
            (.ok (some v),
             { st3 with db := .ok db',
                        cacheData :=
                          some (aset (st3.cacheData.getD []) sub sec') })
        | .commitFails db =>
          -- The `try` of line 160 extends over the commit at the
          -- `with conn` dedent: the INSERT (line 164) and the in-memory
          -- write `existing_cache[title] = ...` (line 165) have already
          -- run when the commit raises, so line 166 is skipped and the
          -- handler (lines 167-169) prints and returns None — with the
          -- new entry left in the in-memory store and the transaction
          -- not durable.  A missing table still raises at the INSERT
          -- itself, before line 165.
          match dbUpsert db sub title ondisk v with
          | none => (.ok none, { st3 with out := st3.out ++ [OutMsg.dbError] })
          | some _ =>
            let sec' := aset sec title ⟨some ondisk, some v⟩
            (.ok none,
             { st3 with cacheData :=
                          some (aset (st3.cacheData.getD []) sub sec'),
                        out := st3.out ++ [OutMsg.dbError] })
      else
        let sec' := aset sec title ⟨some ondisk, some v⟩
        let st4 :=
          { st3 with
              cacheData := some (aset (st3.cacheData.getD []) sub sec') }
        (.ok (some v), dump_cache now st4)

/-- `cached_data_for_file(subsection, title, filename, func, func_message)`
(lines 118-176): obtain the section, stat the file (raising
`FileAccessError` when impossible), look up and mtime-validate the entry,
recompute on a miss, and return the entry's value. -/
def cached_data_for_file {V : Type} (useSqlite : Bool) (now : ℚ)
    (sub title filename : String) (func : Except Unit (Option V))
    (funcMessage : Option String) (st : St V) :
    Except PyErr (Option V) × St V :=
  let r := cacheFn useSqlite sub st
  let sec := r.1
  let st1 := r.2
  match st1.mtimes filename with
  | none => (.error (.fileAccess filename), st1)
  | some ondisk =>
    let entry := validateEntry ondisk (alookup sec title)
    if missCond entry then
      missPath useSqlite now sub title func funcMessage ondisk sec st1
    else
      (.ok (entry.bind CEntry.value), st1)

/-- The miss predicate of a `cached_data_for_file` call, as a standalone
decidable function (same lookup and validation steps as the call itself):
`true` iff the call will reach the compute function. -/
def callMisses {V : Type} (useSqlite : Bool) (sub title filename : String)
    (st : St V) : Bool :=
  match (cacheFn useSqlite sub st).2.mtimes filename with
  | none => false
  | some ondisk =>
      missCond (validateEntry ondisk (alookup (cacheFn useSqlite sub st).1
        title))

/-! ### The debounced writer as a discrete event system

`dump_cache` and its `thread_func` (lines 35-64) interact through the
shared variables `dump_cache_after` and `dump_cache_thread` and real time.
We model them as a discrete event system: a `mark` event is one
`dump_cache()` call at a given time, a `poll` event is one wake-up of the
writer thread's loop at a given time (the thread sleeps one second between
polls; only the poll times matter).  A poll fires the snapshot write
exactly when the loop condition
`dump_cache_after is not None and time.time() < dump_cache_after` fails. -/

/-- The shared debounce state: the flush deadline `dump_cache_after`,
whether a writer thread is live (`dump_cache_thread is not None`), and the
times of the snapshot writes performed so far. -/
structure DSt where
  after : Option ℚ
  running : Bool
  writes : List ℚ
deriving DecidableEq, Repr

/-- An event: a `dump_cache()` call, or one wake-up of the writer loop. -/
inductive DEv where
  | mark (t : ℚ)
  | poll (t : ℚ)
deriving DecidableEq, Repr

/-- The time at which an event happens. -/
def DEv.time : DEv → ℚ
  | .mark t => t
  | .poll t => t

/-- The mark times of a trace. -/
def markTimes (tr : List DEv) : List ℚ :=
  tr.filterMap (fun e => match e with | .mark t => some t | .poll _ => none)

/-- One event step.  `mark t` is lines 60-64: set the deadline to `t + 5`
and ensure a thread is running.  `poll t` is the loop of lines 47-58: if
no thread is live nothing happens; otherwise, if the deadline is set and
still in the future the thread sleeps on, else it performs the snapshot
write and clears both the deadline and the thread slot. -/
def dstep (s : DSt) : DEv → DSt
  | .mark t => { after := some (t + 5), running := true, writes := s.writes }
  | .poll t =>
    if s.running then
      match s.after with
      | some a =>
          if t < a then s
          else { after := none, running := false, writes := s.writes ++ [t] }
      | none => { after := none, running := false, writes := s.writes ++ [t] }
    else s

/-- Run a trace of events from the module's initial state
(`dump_cache_after = None`, no thread, no writes). -/
def drun (tr : List DEv) : DSt :=
  tr.foldl dstep ⟨none, false, []⟩

/-! ### The snapshot write as filesystem micro-steps

The body of `thread_func` after the wait loop (lines 50-55): open the temp
sibling `cache_filename + "-"` (its content is unparsable while being
written), `json.dump` the whole store into it, then `os.replace` it over
the canonical path.  `flushStates` lists the filesystem state after each
micro-step, so that atomicity of the canonical path can be stated. -/

/-- The successive states of one snapshot flush: initial; temp file opened
and partially written; temp file completely serialized; canonical path
atomically replaced (which also clears the deadline and thread slot,
lines 57-58). -/
def flushStates {V : Type} (st : St V) : List (St V) :=
  let store := st.cacheData.getD []
  [st,
   { st with tmpFile := some .corrupt },
   { st with tmpFile := some (.data store) },
   { st with tmpFile := none,
             snapFile := some (.data store),
             dumpAfter := none,
             dumpRunning := false }]

/-! ### Derived observation helpers used in theorem statements -/

/-- The in-memory entry stored for `(sub, title)`. -/
def memEntry {V : Type} (st : St V) (sub title : String) :
    Option (CEntry V) :=
  match st.cacheData with
  | none => none
  | some store => (alookup store sub).bind (fun sec => alookup sec title)

/-- The entry recorded for `(sub, title)` in the sqlite database. -/
def dbEntry {V : Type} (st : St V) (sub title : String) :
    Option (ℚ × V) :=
  match st.db with
  | .failed => none
  | .ok db => (alookup db sub).bind (fun rows => alookup rows title)
  | .commitFails db => (alookup db sub).bind (fun rows => alookup rows title)

/-- The entry recorded for `(sub, title)` in the snapshot file. -/
def snapEntry {V : Type} (st : St V) (sub title : String) :
    Option (CEntry V) :=
  match st.snapFile with
  | some (.data store) => (alookup store sub).bind (fun sec => alookup sec title)
  | _ => none

/-! ### Concrete states for exercising the model -/

/-- A fresh process state: nothing loaded, no snapshot file, a working
empty database, and one file `"f"` on disk with mtime 1000. -/
def exSt : St String :=
  { cacheData := none, dumpAfter := none, dumpRunning := false,
    db := .ok [], snapFile := none, tmpFile := none, quarantine := none,
    mtimes := fun s => if s = "f" then some 1000 else none,
    out := [], funcCalls := 0 }

/-- A loaded state whose `"hashes"` section has an entry for `"model"`
with mtime 1000 and value `"old"`. -/
def exLoaded : St String :=
  { exSt with
      cacheData := some [("hashes", [("model", ⟨some 1000, some "old"⟩)])] }

/-- A loaded state whose `"hashes"` section has an entry for `"model"`
with a matching mtime but no `value` key. -/
def exNoValue : St String :=
  { exSt with
      cacheData := some [("hashes", [("model", ⟨some 1000, none⟩)])] }

/-- A fresh state whose snapshot file holds unparsable bytes. -/
def exCorrupt : St String :=
  { exSt with snapFile := some .corrupt }

/-- A state whose store is materialized but empty. -/
def exEmptyLoaded : St String :=
  { exSt with cacheData := some [] }

/-- `exLoaded` after the file `"f"` was modified on disk: the live mtime
1001 no longer matches the stored 1000. -/
def exStale : St String :=
  { exLoaded with mtimes := fun s => if s = "f" then some 1001 else none }

/-- A loaded sqlite-backend state whose database raises on connect. -/
def exDbFailed : St String :=
  { exSt with cacheData := some [("hashes", [])], db := .failed }

/-- A loaded sqlite-backend state whose database accepts connections and
statements but raises on the commit of any write transaction; the
`"hashes"` table exists and is empty. -/
def exDbCommitFails : St String :=
  { exSt with cacheData := some [("hashes", [])],
              db := .commitFails [("hashes", [])] }

/-! ### Association-list lemmas -/

theorem alookup_map_replace {α : Type} {l : List (String × α)} {k : String}
    (v : α) (h : (alookup l k).isSome) :
    alookup (l.map (fun p => if p.1 = k then (k, v) else p)) k = some v := by
  induction l with
  | nil => simp [alookup] at h
  | cons p rest ih =>
    by_cases hk : p.1 = k
    · simp [alookup, hk]
    · have hk' : ¬ k = p.1 := fun hh => hk hh.symm
      simp only [alookup, hk', if_false] at h
      simpa [alookup, hk, hk'] using ih h

theorem alookup_append_single {α : Type} {l : List (String × α)}
    {k : String} (v : α) (h : alookup l k = none) :
    alookup (l ++ [(k, v)]) k = some v := by
  induction l with
  | nil => simp [alookup]
  | cons p rest ih =>
    simp only [alookup] at h ⊢
    by_cases hk : k = p.1
    · simp [hk] at h
    · simp only [hk, if_false] at h ⊢
      exact ih h

theorem alookup_aset_self {α : Type} (l : List (String × α)) (k : String)
    (v : α) : alookup (aset l k v) k = some v := by
  unfold aset
  by_cases h : (alookup l k).isSome
  · simp only [h, if_true]
    exact alookup_map_replace v h
  · simp only [h, if_false]
    exact alookup_append_single v (by
      cases hh : alookup l k with
      | none => rfl
      | some x => simp [hh] at h)

theorem alookup_map_replace_ne {α : Type} {l : List (String × α)}
    {k k' : String} (v : α) (hne : k' ≠ k) :
    alookup (l.map (fun p => if p.1 = k then (k, v) else p)) k' =
      alookup l k' := by
  induction l with
  | nil => rfl
  | cons p rest ih =>
    by_cases hk : p.1 = k
    · simp [alookup, hk, hne, fun hh : k' = p.1 => hne (hk ▸ hh), ih]
    · simp [alookup, hk, ih]

theorem alookup_append_single_ne {α : Type} (l : List (String × α))
    {k k' : String} (v : α) (hne : k' ≠ k) :
    alookup (l ++ [(k, v)]) k' = alookup l k' := by
  induction l with
  | nil => simp [alookup, hne]
  | cons p rest ih => simp [alookup, ih]

theorem alookup_aset_ne {α : Type} (l : List (String × α)) {k k' : String}
    (v : α) (hne : k' ≠ k) :
    alookup (aset l k v) k' = alookup l k' := by
  unfold aset
  by_cases h : (alookup l k).isSome
  · simp only [h, if_true]
    exact alookup_map_replace_ne v hne
  · simp only [h, if_false]
    exact alookup_append_single_ne l v hne

theorem alookup_ne_nil {α : Type} {l : List (String × α)} {k : String}
    {x : α} (h : alookup l k = some x) : l.isEmpty = false := by
  cases l with
  | nil => simp [alookup] at h
  | cons p rest => rfl

/-! ### Path lemmas for `cacheFn` and `cached_data_for_file` -/

theorem cacheFn_loaded {V : Type} {u : Bool} {sub : String} {st : St V}
    {store : Store V} {sec : Section V}
    (hc : st.cacheData = some store) (hs : alookup store sub = some sec)
    (hne : sec.isEmpty = false) :
    cacheFn u sub st =
      (sec, { st with cacheData := some (aset store sub sec) }) := by
  cases u <;> simp [cacheFn, hc, hs, hne]

theorem cached_hit {V : Type} {u : Bool} {now : ℚ}
    {sub title fn : String} {func : Except Unit (Option V)}
    {fm : Option String} {st : St V} {store : Store V} {sec : Section V}
    {e : CEntry V} {v : V}
    (hc : st.cacheData = some store) (hs : alookup store sub = some sec)
    (he : alookup sec title = some e) (hv : e.value = some v)
    (hm : st.mtimes fn = some (e.mtime.getD 0)) :
    cached_data_for_file u now sub title fn func fm st =
      (.ok (some v), { st with cacheData := some (aset store sub sec) }) := by
  have hne : sec.isEmpty = false := alookup_ne_nil he
  have htr : e.truthy = true := by
    simp [CEntry.truthy, hv]
  rw [cached_data_for_file, cacheFn_loaded hc hs hne]
  simp [hm, he, validateEntry, htr, missCond, hv]

theorem cached_miss {V : Type} {u : Bool} {now : ℚ}
    {sub title fn : String} {func : Except Unit (Option V)}
    {fm : Option String} {st : St V} {m : ℚ}
    (hmt : ((cacheFn u sub st).2).mtimes fn = some m)
    (hm : callMisses u sub title fn st = true) :
    cached_data_for_file u now sub title fn func fm st =
      missPath u now sub title func fm m (cacheFn u sub st).1
        (cacheFn u sub st).2 := by
  unfold callMisses at hm
  rw [cached_data_for_file]
  simp only [hmt] at hm ⊢
  simp [hm]

theorem createTable_entry {V : Type} (db : DB V) (sub s' t : String) :
    (alookup (createTable db sub) s').bind (fun rows => alookup rows t) =
      (alookup db s').bind (fun rows => alookup rows t) := by
  unfold createTable
  cases hh : alookup db sub with
  | some rows => simp [hh]
  | none =>
    by_cases hs : s' = sub
    · subst hs
      have h1 : alookup (db ++ [(s', ([] : List (DBRow V)))]) s' = some [] :=
        alookup_append_single _ hh
      simp [hh, h1, alookup]
    · simp [hh, alookup_append_single_ne db ([] : List (DBRow V)) hs]

/-- Fields of the state that `cache(subsection)` never touches. -/
theorem cacheFn_frame {V : Type} (u : Bool) (sub : String) (st : St V) :
    (cacheFn u sub st).2.mtimes = st.mtimes ∧
    (cacheFn u sub st).2.dumpAfter = st.dumpAfter ∧
    (cacheFn u sub st).2.dumpRunning = st.dumpRunning ∧
    (cacheFn u sub st).2.funcCalls = st.funcCalls := by
  cases u
  · unfold cacheFn
    dsimp only
    by_cases hc : st.cacheData.isNone
    · unfold loadSnapshot
      cases hsf : st.snapFile with
      | none => simp [hc]
      | some fd => cases fd <;> simp [hc, hsf]
    · simp [hc]
  · unfold cacheFn
    dsimp only
    by_cases hc : st.cacheData.isNone <;>
      simp only [hc, Bool.false_eq_true, if_false, if_true] <;>
      split_ifs <;> (try split) <;> (try split_ifs) <;> simp

/-- Effects of `cache(subsection)` when the store is already materialized:
the section handle comes from the store, the persistent files are
untouched, and no database entry changes (only an empty table may be
created). -/
theorem cacheFn_loaded_frame {V : Type} {u : Bool} {sub : String}
    {st : St V} {store : Store V} (hc : st.cacheData = some store) :
    (cacheFn u sub st).1 = (alookup store sub).getD [] ∧
    (cacheFn u sub st).2.snapFile = st.snapFile ∧
    (cacheFn u sub st).2.quarantine = st.quarantine ∧
    (cacheFn u sub st).2.cacheData =
      some (aset store sub ((alookup store sub).getD [])) ∧
    (∀ s' t, dbEntry (cacheFn u sub st).2 s' t = dbEntry st s' t) := by
  cases u
  · simp [cacheFn, hc, dbEntry]
  · unfold cacheFn
    dsimp only
    simp only [hc, Option.isNone_some, Bool.false_eq_true, if_false,
      Option.getD_some]
    split_ifs with hemp
    all_goals cases hdb : st.db
    all_goals simp only [hdb]
    all_goals (try split_ifs)
    all_goals refine ⟨?_, ?_, ?_, ?_, fun s' t => ?_⟩
    all_goals first
      | trivial
      | simp [dbEntry, hdb, hc, createTable_entry]

/-- The miss path when `func()` returns the `None` sentinel: the call
returns the sentinel and (lines 156-157) writes nothing anywhere; only
the progress messages and the invocation counter change. -/
theorem missPath_none {V : Type} (u : Bool) (now : ℚ) (sub title : String)
    (fm : Option String) (ondisk : ℚ) (sec : Section V) (st : St V) :
    (missPath u now sub title (Except.ok none) fm ondisk sec st).1 =
        Except.ok none ∧
    (missPath u now sub title (Except.ok none) fm ondisk sec st).2.cacheData
        = st.cacheData ∧
    (missPath u now sub title (Except.ok none) fm ondisk sec st).2.db
        = st.db ∧
    (missPath u now sub title (Except.ok none) fm ondisk sec st).2.snapFile
        = st.snapFile ∧
    (missPath u now sub title (Except.ok none) fm ondisk sec st).2.quarantine
        = st.quarantine ∧
    (missPath u now sub title (Except.ok none) fm ondisk sec st).2.dumpAfter
        = st.dumpAfter ∧
    (missPath u now sub title (Except.ok none) fm ondisk sec st).2.dumpRunning
        = st.dumpRunning ∧
    (missPath u now sub title (Except.ok none) fm ondisk sec st).2.mtimes
        = st.mtimes ∧
    (missPath u now sub title (Except.ok none) fm ondisk sec st).2.funcCalls
        = st.funcCalls + 1 := by
  cases fm <;> simp [missPath]

/-- The miss path when `func()` raises: the exception propagates as-is
(lines 150-157 have no handler around `func()`). -/
theorem missPath_raise {V : Type} (u : Bool) (now : ℚ) (sub title : String)
    (fm : Option String) (ondisk : ℚ) (sec : Section V) (st : St V) :
    (missPath u now sub title (Except.error () : Except Unit (Option V))
        fm ondisk sec st).1 = Except.error PyErr.funcRaised := by
  cases fm <;> simp [missPath]

/-- The miss path on the snapshot backend when `func()` produces a value:
the new entry is written into the in-memory store and `dump_cache()` is
triggered (lines 171-174). -/
theorem missPath_store_snapshot {V : Type} (now : ℚ) (sub title : String)
    (fm : Option String) (ondisk : ℚ) (sec : Section V) (st : St V)
    (v : V) :
    (missPath false now sub title (Except.ok (some v)) fm ondisk sec st).1 =
        Except.ok (some v) ∧
    (missPath false now sub title (Except.ok (some v)) fm ondisk sec
        st).2.cacheData =
      some (aset (st.cacheData.getD []) sub
        (aset sec title ⟨some ondisk, some v⟩)) ∧
    (missPath false now sub title (Except.ok (some v)) fm ondisk sec
        st).2.funcCalls = st.funcCalls + 1 ∧
    (missPath false now sub title (Except.ok (some v)) fm ondisk sec
        st).2.dumpAfter = some (now + 5) ∧
    (missPath false now sub title (Except.ok (some v)) fm ondisk sec
        st).2.dumpRunning = true ∧
    (missPath false now sub title (Except.ok (some v)) fm ondisk sec
        st).2.db = st.db ∧
    (missPath false now sub title (Except.ok (some v)) fm ondisk sec
        st).2.snapFile = st.snapFile ∧
    (missPath false now sub title (Except.ok (some v)) fm ondisk sec
        st).2.mtimes = st.mtimes := by
  cases fm <;> simp [missPath, dump_cache]

/-- The miss path on the sqlite backend when `func()` produces a value
and the table exists: the row is upserted and the in-memory section is
updated (lines 159-166). -/
theorem missPath_store_sqlite {V : Type} (now : ℚ) (sub title : String)
    (fm : Option String) (ondisk : ℚ) (sec : Section V) (st : St V)
    (v : V) {db : DB V} {rows : List (DBRow V)}
    (hdb : st.db = DBState.ok db) (hrows : alookup db sub = some rows) :
    (missPath true now sub title (Except.ok (some v)) fm ondisk sec st).1 =
        Except.ok (some v) ∧
    (missPath true now sub title (Except.ok (some v)) fm ondisk sec
        st).2.cacheData =
      some (aset (st.cacheData.getD []) sub
        (aset sec title ⟨some ondisk, some v⟩)) ∧
    (missPath true now sub title (Except.ok (some v)) fm ondisk sec
        st).2.db = DBState.ok (aset db sub (aset rows title (ondisk, v))) ∧
    (missPath true now sub title (Except.ok (some v)) fm ondisk sec
        st).2.funcCalls = st.funcCalls + 1 ∧
    (missPath true now sub title (Except.ok (some v)) fm ondisk sec
        st).2.mtimes = st.mtimes := by
  cases fm <;> simp [missPath, hdb, dbUpsert, hrows]

/-- The miss path on the sqlite backend when the database is failing:
the exception is printed, `None` is returned, and neither the database
nor the in-memory store is touched (lines 167-169). -/
theorem missPath_sqlite_failed {V : Type} (now : ℚ) (sub title : String)
    (fm : Option String) (ondisk : ℚ) (sec : Section V) (st : St V)
    (v : V) (hdb : st.db = DBState.failed) :
    (missPath true now sub title (Except.ok (some v)) fm ondisk sec st).1 =
        Except.ok none ∧
    (missPath true now sub title (Except.ok (some v)) fm ondisk sec
        st).2.cacheData = st.cacheData ∧
    (missPath true now sub title (Except.ok (some v)) fm ondisk sec
        st).2.db = st.db ∧
    OutMsg.dbError ∈ (missPath true now sub title (Except.ok (some v)) fm
        ondisk sec st).2.out ∧
    (missPath true now sub title (Except.ok (some v)) fm ondisk sec
        st).2.funcCalls = st.funcCalls + 1 := by
  cases fm <;> simp [missPath, hdb]

/-- The miss path on the sqlite backend when the table exists but the
commit of the upsert transaction fails at the `with conn` exit: the
INSERT (line 164) and the in-memory write (line 165) have already run, so
the handler prints and returns `None` with the new entry left in the
in-memory store and the database contents unchanged. -/
theorem missPath_sqlite_commit_failed {V : Type} (now : ℚ)
    (sub title : String) (fm : Option String) (ondisk : ℚ)
    (sec : Section V) (st : St V) (v : V) {db : DB V}
    {rows : List (DBRow V)}
    (hdb : st.db = DBState.commitFails db)
    (hrows : alookup db sub = some rows) :
    (missPath true now sub title (Except.ok (some v)) fm ondisk sec st).1 =
        Except.ok none ∧
    (missPath true now sub title (Except.ok (some v)) fm ondisk sec
        st).2.cacheData =
      some (aset (st.cacheData.getD []) sub
        (aset sec title ⟨some ondisk, some v⟩)) ∧
    (missPath true now sub title (Except.ok (some v)) fm ondisk sec
        st).2.db = st.db ∧
    OutMsg.dbError ∈ (missPath true now sub title (Except.ok (some v)) fm
        ondisk sec st).2.out ∧
    (missPath true now sub title (Except.ok (some v)) fm ondisk sec
        st).2.funcCalls = st.funcCalls + 1 := by
  cases fm <;> simp [missPath, hdb, dbUpsert, hrows]

/-- Re-registering the looked-up section under its own key does not
change any entry lookup. -/
theorem memEntry_aset_refresh {V : Type} (store : Store V)
    (sub s' t : String) :
    (alookup (aset store sub ((alookup store sub).getD [])) s').bind
        (fun sec => alookup sec t) =
      (alookup store s').bind (fun sec => alookup sec t) := by
  by_cases hs : s' = sub
  · subst hs
    rw [alookup_aset_self]
    cases hh : alookup store s' with
    | none => simp [hh, alookup]
    | some sec => simp [hh]
  · rw [alookup_aset_ne _ _ hs]

/-- `cache(subsection)` keeps a failing database failing. -/
theorem cacheFn_db_failed {V : Type} {u : Bool} {sub : String} {st : St V}
    (hdb : st.db = DBState.failed) :
    (cacheFn u sub st).2.db = DBState.failed := by
  cases u
  · unfold cacheFn
    dsimp only
    by_cases hc : st.cacheData.isNone
    · unfold loadSnapshot
      cases hsf : st.snapFile with
      | none => simp [hc, hdb]
      | some fd => cases fd <;> simp [hc, hsf, hdb]
    · simp [hc, hdb]
  · unfold cacheFn
    dsimp only
    by_cases hc : st.cacheData.isNone <;>
      simp only [hc, Bool.false_eq_true, if_false, if_true] <;>
      split_ifs <;> simp [hdb]

/-- `cache(subsection)` keeps a commit-failing database commit-failing,
with unchanged contents. -/
theorem cacheFn_db_commitFails {V : Type} {u : Bool} {sub : String}
    {st : St V} {db0 : DB V} (hdb : st.db = DBState.commitFails db0) :
    (cacheFn u sub st).2.db = DBState.commitFails db0 := by
  cases u
  · unfold cacheFn
    dsimp only
    by_cases hc : st.cacheData.isNone
    · unfold loadSnapshot
      cases hsf : st.snapFile with
      | none => simp [hc, hdb]
      | some fd => cases fd <;> simp [hc, hsf, hdb]
    · simp [hc, hdb]
  · unfold cacheFn
    dsimp only
    by_cases hc : st.cacheData.isNone <;>
      simp only [hc, Bool.false_eq_true, if_false, if_true] <;>
      split_ifs <;> (try simp only [hdb]) <;> (try split_ifs) <;>
      simp [hdb]

/-- States with equal `cache_data` have equal in-memory entries. -/
theorem memEntry_congr {V : Type} {st st' : St V}
    (h : st.cacheData = st'.cacheData) (sub t : String) :
    memEntry st sub t = memEntry st' sub t := by
  simp [memEntry, h]

/-- States with equal databases have equal database entries. -/
theorem dbEntry_congr {V : Type} {st st' : St V}
    (h : st.db = st'.db) (sub t : String) :
    dbEntry st sub t = dbEntry st' sub t := by
  simp [dbEntry, h]

/-- A `callMisses` call that returns `true` found a live mtime. -/
theorem callMisses_mtime {V : Type} {u : Bool} {sub title fn : String}
    {st : St V} (h : callMisses u sub title fn st = true) :
    ∃ m, ((cacheFn u sub st).2).mtimes fn = some m := by
  cases hmt : ((cacheFn u sub st).2).mtimes fn with
  | none =>
    exfalso
    unfold callMisses at h
    rw [hmt] at h
    exact Bool.false_ne_true h
  | some m => exact ⟨m, rfl⟩

/-! ### The claims -/

/-- C5: loading a snapshot file with unparsable contents during the lazy
load in `cache(subsection)` does not raise to the caller (the embedded
operation is total and returns normally): the corrupt file is moved aside
to the quarantine location `tmp/cache.json`, a diagnostic is printed, and
the in-memory store starts empty, with the requested subsection registered
as an empty section. -/
theorem c5_corruption_recovery {V : Type} (sub : String) (st : St V)
    (hc : st.cacheData = none) (hf : st.snapFile = some FileData.corrupt) :
    (cacheFn false sub st).1 = [] ∧
    (cacheFn false sub st).2.cacheData = some [(sub, [])] ∧
    (cacheFn false sub st).2.snapFile = none ∧
    (cacheFn false sub st).2.quarantine = some FileData.corrupt ∧
    OutMsg.corruptCache ∈ (cacheFn false sub st).2.out := by
  simp [cacheFn, loadSnapshot, hc, hf, alookup, aset]

/-- Witness for C5 at a concrete corrupt state. -/
theorem c5_corruption_recovery_witness :
    (cacheFn false "hashes" exCorrupt).1 = [] ∧
    (cacheFn false "hashes" exCorrupt).2.cacheData = some [("hashes", [])] ∧
    (cacheFn false "hashes" exCorrupt).2.snapFile = none ∧
    (cacheFn false "hashes" exCorrupt).2.quarantine =
      some FileData.corrupt ∧
    OutMsg.corruptCache ∈ (cacheFn false "hashes" exCorrupt).2.out :=
  c5_corruption_recovery "hashes" exCorrupt rfl rfl

/-- C6: every intermediate filesystem state of a snapshot flush shows the
canonical path holding either its previous contents or the complete
serialization of the in-memory store — never a partial write — and the
final state holds the complete serialization, with the temporary sibling
gone (moved over the canonical path by `os.replace`). -/
theorem c6_atomic_snapshot {V : Type} [DecidableEq V] (st : St V) :
    (((flushStates st).map St.snapFile).all
        (fun c => c == st.snapFile ||
          c == some (FileData.data (st.cacheData.getD []))) = true) ∧
    ((flushStates st).getLastD st).snapFile =
      some (FileData.data (st.cacheData.getD [])) ∧
    ((flushStates st).getLastD st).tmpFile = none := by
  simp [flushStates]

/-- Witness for C6 at a concrete loaded state. -/
theorem c6_atomic_snapshot_witness :
    (((flushStates exLoaded).map St.snapFile).all
        (fun c => c == exLoaded.snapFile ||
          c == some (FileData.data (exLoaded.cacheData.getD []))) =
      true) ∧
    ((flushStates exLoaded).getLastD exLoaded).snapFile =
      some (FileData.data (exLoaded.cacheData.getD [])) ∧
    ((flushStates exLoaded).getLastD exLoaded).tmpFile = none :=
  c6_atomic_snapshot exLoaded

/-- C9: a failing stat of the source file raises `FileAccessError`
uncaught, and an exception from the caller-supplied compute function
propagates unmodified; in both cases `cached_data_for_file` reports the
error to the caller. -/
theorem c9_errors_propagate {V : Type} :
    (∀ (u : Bool) (now : ℚ) (sub title fn : String)
        (func : Except Unit (Option V)) (fm : Option String) (st : St V),
        st.mtimes fn = none →
        (cached_data_for_file u now sub title fn func fm st).1 =
          Except.error (PyErr.fileAccess fn)) ∧
    (∀ (u : Bool) (now : ℚ) (sub title fn : String) (fm : Option String)
        (st : St V),
        callMisses u sub title fn st = true →
        (cached_data_for_file u now sub title fn (Except.error ()) fm
            st).1 = Except.error PyErr.funcRaised) := by
  constructor
  · intro u now sub title fn func fm st hm
    have hpres := (cacheFn_frame u sub st).1
    simp only [cached_data_for_file]
    rw [hpres, hm]
  · intro u now sub title fn fm st hmiss
    obtain ⟨m, hmt⟩ := callMisses_mtime hmiss
    rw [cached_miss hmt hmiss]
    exact missPath_raise u now sub title fm m _ _

/-- Witness for C9: a file that cannot be stat'd, and a raising compute
function, at concrete states. -/
theorem c9_errors_propagate_witness :
    (cached_data_for_file false 3 "hashes" "model" "g"
        (Except.ok (some "x")) none exSt).1 =
      Except.error (PyErr.fileAccess "g") ∧
    (cached_data_for_file false 3 "hashes" "model" "f"
        (Except.error () : Except Unit (Option String)) none exSt).1 =
      Except.error PyErr.funcRaised :=
  ⟨c9_errors_propagate.1 false 3 "hashes" "model" "g"
      (Except.ok (some "x")) none exSt (by decide),
   c9_errors_propagate.2 false 3 "hashes" "model" "f" none exSt
      (by decide)⟩

/-- C10: an entry whose stored mtime matches the live one but which lacks
a `value` key is treated as a cache miss: the compute function is invoked
(once more), its result is returned without raising, and the slot is
overwritten with a complete entry. -/
theorem c10_missing_value_recomputes {V : Type} {u : Bool} {now : ℚ}
    {sub title fn : String} {fm : Option String} {st : St V}
    {store : Store V} {sec : Section V} {m : ℚ} (v : V)
    (hc : st.cacheData = some store) (hs : alookup store sub = some sec)
    (he : alookup sec title = some ⟨some m, none⟩)
    (hm : st.mtimes fn = some m)
    (hdb : u = true →
      ∃ db rows, st.db = DBState.ok db ∧ alookup db sub = some rows) :
    (cached_data_for_file u now sub title fn (Except.ok (some v)) fm
        st).1 = Except.ok (some v) ∧
    (cached_data_for_file u now sub title fn (Except.ok (some v)) fm
        st).2.funcCalls = st.funcCalls + 1 ∧
    memEntry (cached_data_for_file u now sub title fn
        (Except.ok (some v)) fm st).2 sub title =
      some ⟨some m, some v⟩ := by
  have hne := alookup_ne_nil he
  have hload := @cacheFn_loaded V u sub st store sec hc hs hne
  have hmt : ((cacheFn u sub st).2).mtimes fn = some m := by
    rw [hload]; exact hm
  have hmiss : callMisses u sub title fn st = true := by
    unfold callMisses
    rw [hload]
    simp [hm, he, validateEntry, CEntry.truthy, missCond]
  rw [cached_miss hmt hmiss, hload]
  dsimp only
  cases u with
  | false =>
    obtain ⟨h1, h2, h3, -, -, -, -, -⟩ :=
      missPath_store_snapshot now sub title fm m sec
        { st with cacheData := some (aset store sub sec) } v
    refine ⟨h1, by rw [h3], ?_⟩
    simp [memEntry, h2, alookup_aset_self]
  | true =>
    obtain ⟨db, rows, hdbok, hrows⟩ := hdb rfl
    have hdb1 :
        ({ st with cacheData := some (aset store sub sec) } : St V).db =
          DBState.ok db := hdbok
    obtain ⟨h1, h2, h3, h4, -⟩ :=
      missPath_store_sqlite now sub title fm m sec
        { st with cacheData := some (aset store sub sec) } v hdb1 hrows
    refine ⟨h1, by rw [h4], ?_⟩
    simp [memEntry, h2, alookup_aset_self]

/-- Witness for C10 at a concrete mtime-matching entry with no value. -/
theorem c10_missing_value_recomputes_witness :
    (cached_data_for_file false 7 "hashes" "model" "f"
        (Except.ok (some "new")) none exNoValue).1 =
      Except.ok (some "new") ∧
    (cached_data_for_file false 7 "hashes" "model" "f"
        (Except.ok (some "new")) none exNoValue).2.funcCalls =
      exNoValue.funcCalls + 1 ∧
    memEntry (cached_data_for_file false 7 "hashes" "model" "f"
        (Except.ok (some "new")) none exNoValue).2 "hashes" "model" =
      some ⟨some 1000, some "new"⟩ :=
  @c10_missing_value_recomputes String false 7 "hashes" "model" "f" none
    exNoValue [("hashes", [("model", ⟨some 1000, none⟩)])]
    [("model", ⟨some 1000, none⟩)] 1000 "new"
    (by decide) (by decide) (by decide) (by decide)
    (fun h => absurd h (by decide))

/-- C2: when the live mtime of the file differs from the stored one, the
entry is treated as absent: the compute function is invoked again, and on
success the slot for that title is overwritten with the new mtime and the
newly computed value (for the sqlite backend, also in the database row).
The sqlite side assumes the working database has the subsection's table,
which `cache(subsection)` guarantees for any section that holds an
entry. -/
theorem c2_mtime_invalidation {V : Type} {u : Bool} {now : ℚ}
    {sub title fn : String} {fm : Option String} {st : St V}
    {store : Store V} {sec : Section V} {e : CEntry V} {mNew : ℚ} (v : V)
    (hc : st.cacheData = some store) (hs : alookup store sub = some sec)
    (he : alookup sec title = some e) (het : e.truthy = true)
    (hm : st.mtimes fn = some mNew) (hne : mNew ≠ e.mtime.getD 0)
    (hdb : u = true →
      ∃ db rows, st.db = DBState.ok db ∧ alookup db sub = some rows) :
    (cached_data_for_file u now sub title fn (Except.ok (some v)) fm
        st).1 = Except.ok (some v) ∧
    (cached_data_for_file u now sub title fn (Except.ok (some v)) fm
        st).2.funcCalls = st.funcCalls + 1 ∧
    memEntry (cached_data_for_file u now sub title fn (Except.ok (some v))
        fm st).2 sub title = some ⟨some mNew, some v⟩ ∧
    (u = true →
      dbEntry (cached_data_for_file u now sub title fn (Except.ok (some v))
        fm st).2 sub title = some (mNew, v)) := by
  have hne0 := alookup_ne_nil he
  have hload := @cacheFn_loaded V u sub st store sec hc hs hne0
  have hmt : ((cacheFn u sub st).2).mtimes fn = some mNew := by
    rw [hload]; exact hm
  have hmiss : callMisses u sub title fn st = true := by
    unfold callMisses
    rw [hload]
    simp [hm, he, validateEntry, het, missCond, hne]
  rw [cached_miss hmt hmiss, hload]
  dsimp only
  cases u with
  | false =>
    obtain ⟨h1, h2, h3, -, -, -, -, -⟩ :=
      missPath_store_snapshot now sub title fm mNew sec
        { st with cacheData := some (aset store sub sec) } v
    refine ⟨h1, by rw [h3], ?_, fun hu => absurd hu (by simp)⟩
    simp [memEntry, h2, alookup_aset_self]
  | true =>
    obtain ⟨db, rows, hdbok, hrows⟩ := hdb rfl
    have hdb1 :
        ({ st with cacheData := some (aset store sub sec) } : St V).db =
          DBState.ok db := hdbok
    obtain ⟨h1, h2, h3, h4, -⟩ :=
      missPath_store_sqlite now sub title fm mNew sec
        { st with cacheData := some (aset store sub sec) } v hdb1 hrows
    refine ⟨h1, by rw [h4], ?_, fun hu => ?_⟩
    · simp [memEntry, h2, alookup_aset_self]
    · simp [dbEntry, h3, alookup_aset_self]

/-- Witness for C2 at a concrete stale entry (stored mtime 1000, live
mtime 1001), snapshot backend. -/
theorem c2_mtime_invalidation_witness :
    (cached_data_for_file false 9 "hashes" "model" "f"
        (Except.ok (some "new")) none exStale).1 = Except.ok (some "new") ∧
    (cached_data_for_file false 9 "hashes" "model" "f"
        (Except.ok (some "new")) none exStale).2.funcCalls =
      exStale.funcCalls + 1 ∧
    memEntry (cached_data_for_file false 9 "hashes" "model" "f"
        (Except.ok (some "new")) none exStale).2 "hashes" "model" =
      some ⟨some 1001, some "new"⟩ ∧
    (false = true →
      dbEntry (cached_data_for_file false 9 "hashes" "model" "f"
        (Except.ok (some "new")) none exStale).2 "hashes" "model" =
        some (1001, "new")) :=
  @c2_mtime_invalidation String false 9 "hashes" "model" "f" none exStale
    [("hashes", [("model", ⟨some 1000, some "old"⟩)])]
    [("model", ⟨some 1000, some "old"⟩)] ⟨some 1000, some "old"⟩ 1001 "new"
    (by decide) (by decide) (by decide) (by decide) (by decide) (by decide)
    (fun h => absurd h (by decide))

/-- C3: when the compute function returns the `None` sentinel, the call
returns the sentinel and no cache entry is created or modified for any
key, neither in memory nor in either persistence backend (no database
write, no snapshot-file change, no flush scheduled). -/
theorem c3_sentinel_not_cached {V : Type} {u : Bool} {now : ℚ}
    {sub title fn : String} {fm : Option String} {st : St V}
    {store : Store V}
    (hc : st.cacheData = some store)
    (hmiss : callMisses u sub title fn st = true) :
    (cached_data_for_file u now sub title fn (Except.ok none) fm st).1 =
        Except.ok none ∧
    (∀ s' t, memEntry (cached_data_for_file u now sub title fn
        (Except.ok none) fm st).2 s' t = memEntry st s' t) ∧
    (∀ s' t, dbEntry (cached_data_for_file u now sub title fn
        (Except.ok none) fm st).2 s' t = dbEntry st s' t) ∧
    (cached_data_for_file u now sub title fn (Except.ok none) fm
        st).2.snapFile = st.snapFile ∧
    (cached_data_for_file u now sub title fn (Except.ok none) fm
        st).2.dumpAfter = st.dumpAfter ∧
    (cached_data_for_file u now sub title fn (Except.ok none) fm
        st).2.dumpRunning = st.dumpRunning := by
  obtain ⟨m, hmt⟩ := callMisses_mtime hmiss
  rw [cached_miss hmt hmiss]
  obtain ⟨h1, h2, h3, h4, h5, h6, h7, h8, h9⟩ :=
    missPath_none u now sub title fm m (cacheFn u sub st).1
      (cacheFn u sub st).2
  obtain ⟨lf1, lf2, lf3, lf4, lf5⟩ := @cacheFn_loaded_frame V u sub st store hc
  obtain ⟨f1, f2, f3, f4⟩ := cacheFn_frame u sub st
  refine ⟨h1, fun s' t => ?_, fun s' t => ?_, ?_, ?_, ?_⟩
  · rw [memEntry_congr h2 s' t]
    simp only [memEntry, lf4, hc]
    exact memEntry_aset_refresh store sub s' t
  · rw [dbEntry_congr h3 s' t]
    exact lf5 s' t
  · rw [h4, lf2]
  · rw [h6, f2]
  · rw [h7, f3]

/-- Witness for C3 at a concrete miss with a sentinel-returning compute
function. -/
theorem c3_sentinel_not_cached_witness :
    (cached_data_for_file false 4 "hashes" "model" "f"
        (Except.ok (none : Option String)) none exEmptyLoaded).1 =
      Except.ok none ∧
    memEntry (cached_data_for_file false 4 "hashes" "model" "f"
        (Except.ok (none : Option String)) none exEmptyLoaded).2
        "hashes" "model" = memEntry exEmptyLoaded "hashes" "model" ∧
    dbEntry (cached_data_for_file false 4 "hashes" "model" "f"
        (Except.ok (none : Option String)) none exEmptyLoaded).2
        "hashes" "model" = dbEntry exEmptyLoaded "hashes" "model" ∧
    (cached_data_for_file false 4 "hashes" "model" "f"
        (Except.ok (none : Option String)) none exEmptyLoaded).2.snapFile =
      exEmptyLoaded.snapFile ∧
    (cached_data_for_file false 4 "hashes" "model" "f"
        (Except.ok (none : Option String)) none exEmptyLoaded).2.dumpAfter =
      exEmptyLoaded.dumpAfter ∧
    (cached_data_for_file false 4 "hashes" "model" "f"
        (Except.ok (none : Option String)) none
        exEmptyLoaded).2.dumpRunning = exEmptyLoaded.dumpRunning := by
  obtain ⟨a, b, c, d, e, f⟩ :=
    @c3_sentinel_not_cached String false 4 "hashes" "model" "f" none
      exEmptyLoaded [] (by decide) (by decide)
  exact ⟨a, b "hashes" "model", c "hashes" "model", d, e, f⟩

/-- C8 counterexample: with a database that accepts the INSERT but fails
at the commit of the transaction (the `with conn` dedent), the upsert of
`cached_data_for_file` prints a diagnostic and returns `None` — but the
in-memory entry for the title has already been written at line 165, which
the `try` of line 160 still covers, so the failed operation does NOT
leave the store state unchanged: the entry for `"model"` goes from
absent to present. -/
theorem c8_unchanged_counterexample :
    (cached_data_for_file true 2 "hashes" "model" "f"
        (Except.ok (some "v")) none exDbCommitFails).1 = Except.ok none ∧
    memEntry exDbCommitFails "hashes" "model" = none ∧
    memEntry (cached_data_for_file true 2 "hashes" "model" "f"
        (Except.ok (some "v")) none exDbCommitFails).2 "hashes" "model" =
      some ⟨some 1000, some "v"⟩ ∧
    OutMsg.dbError ∈ (cached_data_for_file true 2 "hashes" "model" "f"
        (Except.ok (some "v")) none exDbCommitFails).2.out := by
  decide

/-- C8 (amended): a failing table-store connection or transaction never
raises to the caller: the load returns an empty store with a diagnostic,
and a failing upsert prints a diagnostic and returns `None`.  An error
raised at connect or at statement execution (before line 165) leaves
both the in-memory store and the database unchanged; a transaction error
at the commit (raised after line 165) leaves the database unchanged but
the in-memory slot already overwritten with the new entry. -/
theorem c8_db_errors_inert {V : Type} :
    (cache_db_to_dict (DBState.failed : DBState V) =
      ([], [OutMsg.dbError])) ∧
    (∀ (now : ℚ) (sub title fn : String) (fm : Option String) (st : St V)
        (store : Store V) (v : V),
        st.db = DBState.failed → st.cacheData = some store →
        callMisses true sub title fn st = true →
        (cached_data_for_file true now sub title fn (Except.ok (some v))
            fm st).1 = Except.ok none ∧
        (∀ s' t, memEntry (cached_data_for_file true now sub title fn
            (Except.ok (some v)) fm st).2 s' t = memEntry st s' t) ∧
        (cached_data_for_file true now sub title fn (Except.ok (some v))
            fm st).2.db = st.db ∧
        OutMsg.dbError ∈ (cached_data_for_file true now sub title fn
            (Except.ok (some v)) fm st).2.out) ∧
    (∀ (now : ℚ) (sub title fn : String) (fm : Option String) (st : St V)
        (store : Store V) (db0 : DB V) (rows : List (DBRow V)) (m : ℚ)
        (v : V),
        st.db = DBState.commitFails db0 → st.cacheData = some store →
        alookup db0 sub = some rows → st.mtimes fn = some m →
        callMisses true sub title fn st = true →
        (cached_data_for_file true now sub title fn (Except.ok (some v))
            fm st).1 = Except.ok none ∧
        (cached_data_for_file true now sub title fn (Except.ok (some v))
            fm st).2.db = st.db ∧
        OutMsg.dbError ∈ (cached_data_for_file true now sub title fn
            (Except.ok (some v)) fm st).2.out ∧
        memEntry (cached_data_for_file true now sub title fn
            (Except.ok (some v)) fm st).2 sub title =
          some ⟨some m, some v⟩) := by
  refine ⟨rfl, ?_, ?_⟩
  · intro now sub title fn fm st store v hdbf hc hmiss
    obtain ⟨m, hmt⟩ := callMisses_mtime hmiss
    rw [cached_miss hmt hmiss]
    have hdb1 : ((cacheFn true sub st).2).db = DBState.failed :=
      cacheFn_db_failed hdbf
    obtain ⟨h1, h2, h3, h4, h5⟩ :=
      missPath_sqlite_failed now sub title fm m (cacheFn true sub st).1
        (cacheFn true sub st).2 v hdb1
    obtain ⟨lf1, lf2, lf3, lf4, lf5⟩ :=
      @cacheFn_loaded_frame V true sub st store hc
    refine ⟨h1, fun s' t => ?_, ?_, h4⟩
    · rw [memEntry_congr h2 s' t]
      simp only [memEntry, lf4, hc]
      exact memEntry_aset_refresh store sub s' t
    · rw [h3, hdb1, hdbf]
  · intro now sub title fn fm st store db0 rows m v hdbc hc hrows hmt0
      hmiss
    have hmtc : ((cacheFn true sub st).2).mtimes fn = some m := by
      rw [(cacheFn_frame true sub st).1]; exact hmt0
    rw [cached_miss hmtc hmiss]
    have hdb1 : ((cacheFn true sub st).2).db = DBState.commitFails db0 :=
      cacheFn_db_commitFails hdbc
    obtain ⟨h1, h2, h3, h4, h5⟩ :=
      missPath_sqlite_commit_failed now sub title fm m
        (cacheFn true sub st).1 (cacheFn true sub st).2 v hdb1 hrows
    refine ⟨h1, ?_, h4, ?_⟩
    · rw [h3, hdb1, hdbc]
    · simp [memEntry, h2, alookup_aset_self]

/-- Witness for the amended C8 at concrete failing databases: one that
fails at connect, one that fails only at the commit of the write
transaction. -/
theorem c8_db_errors_inert_witness :
    cache_db_to_dict (DBState.failed : DBState String) =
      ([], [OutMsg.dbError]) ∧
    (cached_data_for_file true 2 "hashes" "model" "f"
        (Except.ok (some "v")) none exDbFailed).1 = Except.ok none ∧
    memEntry (cached_data_for_file true 2 "hashes" "model" "f"
        (Except.ok (some "v")) none exDbFailed).2 "hashes" "model" =
      memEntry exDbFailed "hashes" "model" ∧
    (cached_data_for_file true 2 "hashes" "model" "f"
        (Except.ok (some "v")) none exDbFailed).2.db = exDbFailed.db ∧
    OutMsg.dbError ∈ (cached_data_for_file true 2 "hashes" "model" "f"
        (Except.ok (some "v")) none exDbFailed).2.out ∧
    (cached_data_for_file true 3 "hashes" "model" "f"
        (Except.ok (some "w")) none exDbCommitFails).1 = Except.ok none ∧
    (cached_data_for_file true 3 "hashes" "model" "f"
        (Except.ok (some "w")) none exDbCommitFails).2.db =
      exDbCommitFails.db ∧
    OutMsg.dbError ∈ (cached_data_for_file true 3 "hashes" "model" "f"
        (Except.ok (some "w")) none exDbCommitFails).2.out ∧
    memEntry (cached_data_for_file true 3 "hashes" "model" "f"
        (Except.ok (some "w")) none exDbCommitFails).2 "hashes" "model" =
      some ⟨some 1000, some "w"⟩ := by
  obtain ⟨a, b, c, d⟩ :=
    (@c8_db_errors_inert String).2.1 2 "hashes" "model" "f" none
      exDbFailed [("hashes", [])] "v" (by decide) (by decide) (by decide)
  obtain ⟨e, f, g, h⟩ :=
    (@c8_db_errors_inert String).2.2 3 "hashes" "model" "f" none
      exDbCommitFails [("hashes", [])] [("hashes", [])] [] 1000 "w"
      (by decide) (by decide) (by decide) (by decide) (by decide)
  exact ⟨(@c8_db_errors_inert String).1, a, b "hashes" "model", c, d, e,
    f, g, h⟩

/-! ### Round-trip lemmas for the table store -/

theorem alookup_eq_none_of_not_mem {α : Type} {l : List (String × α)}
    {k : String} (h : ∀ p ∈ l, p.1 ≠ k) : alookup l k = none := by
  induction l with
  | nil => rfl
  | cons p rest ih =>
    have hk : ¬ k = p.1 := fun hh => h p (List.mem_cons_self p rest) hh.symm
    simp only [alookup, hk, if_false]
    exact ih (fun q hq => h q (List.mem_cons_of_mem p hq))

theorem not_mem_of_alookup_eq_none {α : Type} {l : List (String × α)}
    {k : String} (h : alookup l k = none) : ∀ p ∈ l, p.1 ≠ k := by
  induction l with
  | nil => intro p hp; cases hp
  | cons q rest ih =>
    intro p hp
    simp only [alookup] at h
    by_cases hk : k = q.1
    · simp [hk] at h
    · rcases List.mem_cons.mp hp with hpq | hpr
      · subst hpq; exact fun hh => hk hh.symm
      · exact ih (by simpa [hk] using h) p hpr

theorem aset_keys_of_mem {α : Type} {l : List (String × α)} {k : String}
    (v : α) (h : (alookup l k).isSome) :
    (aset l k v).map Prod.fst = l.map Prod.fst := by
  unfold aset
  simp only [h, if_true, List.map_map]
  apply List.map_congr_left
  intro p _
  by_cases hp : p.1 = k <;> simp [hp]

theorem aset_keys_nodup {α : Type} {l : List (String × α)} {k : String}
    (v : α) (h : ((l.map Prod.fst).Nodup)) :
    ((aset l k v).map Prod.fst).Nodup := by
  by_cases hk : (alookup l k).isSome
  · rw [aset_keys_of_mem v hk]; exact h
  · have hnone : alookup l k = none := by
      cases hh : alookup l k with
      | none => rfl
      | some x => simp [hh] at hk
    unfold aset
    rw [if_neg hk]
    simp only [List.map_append]
    simp only [List.nodup_append]
    refine ⟨h, by simp, ?_⟩
    intro a ha
    simp only [List.map_cons, List.map_nil, List.mem_singleton]
    intro hak
    subst hak
    obtain ⟨p, hp, hpk⟩ := List.mem_map.mp ha
    exact not_mem_of_alookup_eq_none hnone p hp hpk

theorem alookup_foldl_aset_skip {α β : Type} (g : β → α)
    {l : List (String × β)} (acc : List (String × α)) {k : String}
    (h : ∀ p ∈ l, p.1 ≠ k) :
    alookup (l.foldl (fun s p => aset s p.1 (g p.2)) acc) k =
      alookup acc k := by
  induction l generalizing acc with
  | nil => rfl
  | cons p rest ih =>
    simp only [List.foldl_cons]
    rw [ih _ (fun q hq => h q (List.mem_cons_of_mem p hq))]
    exact alookup_aset_ne acc (g p.2)
      (fun hh => h p (List.mem_cons_self p rest) hh.symm)

theorem alookup_foldl_aset {α β : Type} (g : β → α)
    {l : List (String × β)} (acc : List (String × α)) (k : String)
    (hnd : (l.map Prod.fst).Nodup) :
    alookup (l.foldl (fun s p => aset s p.1 (g p.2)) acc) k =
      (match alookup l k with
       | some b => some (g b)
       | none => alookup acc k) := by
  induction l generalizing acc with
  | nil => rfl
  | cons p rest ih =>
    simp only [List.foldl_cons]
    have hnd' : (rest.map Prod.fst).Nodup := (List.nodup_cons.mp hnd).2
    by_cases hk : k = p.1
    · have hnm : ∀ q ∈ rest, q.1 ≠ k :=
        fun q hq hh =>
          (List.nodup_cons.mp hnd).1
            ((hh.trans hk) ▸ List.mem_map_of_mem Prod.fst hq)
      rw [alookup_foldl_aset_skip g _ hnm]
      rw [show k = p.1 from hk, alookup_aset_self]
      simp [alookup]
    · rw [ih _ hnd']
      have : alookup (p :: rest) k = alookup rest k := by
        simp [alookup, hk]
      rw [this]
      cases alookup rest k with
      | some b => rfl
      | none => exact alookup_aset_ne acc (g p.2) hk

/-- Lookup in a Section built from table rows with unique paths. -/
theorem rowsToSection_lookup {V : Type} {rows : List (DBRow V)}
    (title : String) (hnd : (rows.map Prod.fst).Nodup) :
    alookup (rowsToSection rows) title =
      (alookup rows title).map (fun b => ⟨some b.1, some b.2⟩) := by
  unfold rowsToSection
  rw [alookup_foldl_aset
    (fun b : ℚ × V => (⟨some b.1, some b.2⟩ : CEntry V)) [] title hnd]
  cases alookup rows title with
  | some b => rfl
  | none => rfl

/-- Lookup in a store built by `cache_db_to_dict` from a database with
unique table names. -/
theorem dbToStore_lookup {V : Type} {db : DB V} (sub : String)
    (hnd : (db.map Prod.fst).Nodup) :
    alookup (dbToStore db) sub = (alookup db sub).map rowsToSection := by
  unfold dbToStore
  rw [alookup_foldl_aset rowsToSection [] sub hnd]
  cases alookup db sub with
  | some rows => rfl
  | none => rfl

/-- C7: a value stored through the table-store backend (`INSERT OR
REPLACE` keyed by title) and then reloaded through `cache_db_to_dict`
(simulating a restart) comes back as an entry holding the same mtime and
a structurally equal value.  Uniqueness of table names and of row paths
is the PRIMARY KEY / sqlite_master invariant. -/
theorem c7_tablestore_roundtrip {V : Type} {db : DB V}
    {rows : List (DBRow V)} (sub title : String) (m : ℚ) (v : V)
    (hnd : (db.map Prod.fst).Nodup)
    (hrows : alookup db sub = some rows)
    (hrnd : (rows.map Prod.fst).Nodup) :
    ∃ db', dbUpsert db sub title m v = some db' ∧
      (alookup (cache_db_to_dict (DBState.ok db')).1 sub).bind
        (fun sec => alookup sec title) = some ⟨some m, some v⟩ := by
  refine ⟨aset db sub (aset rows title (m, v)), by simp [dbUpsert, hrows],
    ?_⟩
  have hnd' : ((aset db sub (aset rows title (m, v))).map Prod.fst).Nodup :=
    aset_keys_nodup _ hnd
  have hrnd' : ((aset rows title (m, v)).map Prod.fst).Nodup :=
    aset_keys_nodup _ hrnd
  show (alookup (dbToStore _) sub).bind (fun sec => alookup sec title) = _
  rw [dbToStore_lookup sub hnd', alookup_aset_self]
  simp only [Option.map_some', Option.some_bind]
  rw [rowsToSection_lookup title hrnd', alookup_aset_self]
  rfl

/-- Witness for C7 at a concrete database. -/
theorem c7_tablestore_roundtrip_witness :
    ∃ db', dbUpsert [("hashes", [("other", ((1 : ℚ), "x"))])] "hashes"
        "model" 1000 "val" = some db' ∧
      (alookup (cache_db_to_dict (DBState.ok db')).1 "hashes").bind
        (fun sec => alookup sec "model") = some ⟨some 1000, some "val"⟩ :=
  @c7_tablestore_roundtrip String [("hashes", [("other", (1, "x"))])]
    [("other", (1, "x"))] "hashes" "model" 1000 "val" (by decide)
    (by decide) (by decide)

/-! ### Inversion: what a successful call guarantees about the state -/

/-- `cache(subsection)` always registers the returned section handle in
the store (`cache_data[subsection] = s`). -/
theorem cacheFn_registers {V : Type} (u : Bool) (sub : String)
    (st : St V) :
    ∃ store1, (cacheFn u sub st).2.cacheData = some store1 ∧
      alookup store1 sub = some (cacheFn u sub st).1 := by
  cases u <;> unfold cacheFn loadSnapshot <;> dsimp only <;>
    split_ifs <;> (try split) <;>
    exact ⟨_, rfl, alookup_aset_self _ _ _⟩

/-- When the miss path returns a value, it has stored the corresponding
entry in the section registered for the subsection, leaving mtimes
unchanged. -/
theorem missPath_success_state {V : Type} {u : Bool} {now : ℚ}
    {sub title : String} {func : Except Unit (Option V)}
    {fm : Option String} {ondisk : ℚ} {sec : Section V} {st : St V}
    {v : V}
    (h : (missPath u now sub title func fm ondisk sec st).1 =
      Except.ok (some v)) :
    (missPath u now sub title func fm ondisk sec st).2.cacheData =
      some (aset (st.cacheData.getD []) sub
        (aset sec title ⟨some ondisk, some v⟩)) ∧
    (missPath u now sub title func fm ondisk sec st).2.mtimes =
      st.mtimes := by
  cases func with
  | error e => cases fm <;> simp [missPath] at h
  | ok value =>
    cases value with
    | none => cases fm <;> simp [missPath] at h
    | some w =>
      cases u with
      | false =>
        cases fm <;>
          (have hv : w = v := by simpa [missPath] using h) <;> subst hv <;>
          (constructor <;> simp [missPath, dump_cache])
      | true =>
        cases hdb : st.db with
        | failed => cases fm <;> simp [missPath, hdb] at h
        | ok db =>
          cases hup : dbUpsert db sub title ondisk w with
          | none => cases fm <;> simp [missPath, hdb, hup] at h
          | some db' =>
            cases fm <;>
              (have hv : w = v := by simpa [missPath, hdb, hup] using h) <;>
              subst hv <;>
              (constructor <;> simp [missPath, hdb, hup])
        | commitFails db =>
          cases hup : dbUpsert db sub title ondisk w with
          | none => cases fm <;> simp [missPath, hdb, hup] at h
          | some db' => cases fm <;> simp [missPath, hdb, hup] at h

/-- Inversion of a successful call: after
`cached_data_for_file` returns a (non-sentinel) value, the post-state
holds, for that (subsection, title), an entry carrying that value whose
stored mtime matches the file's live mtime. -/
theorem cached_success_state {V : Type} {u : Bool} {now : ℚ}
    {sub title fn : String} {func : Except Unit (Option V)}
    {fm : Option String} {st : St V} {v : V}
    (h : (cached_data_for_file u now sub title fn func fm st).1 =
      Except.ok (some v)) :
    ∃ store sec e,
      (cached_data_for_file u now sub title fn func fm st).2.cacheData =
        some store ∧
      alookup store sub = some sec ∧
      alookup sec title = some e ∧
      e.value = some v ∧
      (cached_data_for_file u now sub title fn func fm st).2.mtimes fn =
        some (e.mtime.getD 0) := by
  obtain ⟨store1, hst1, hreg1⟩ := cacheFn_registers u sub st
  simp only [cached_data_for_file] at h ⊢
  cases hmt : ((cacheFn u sub st).2).mtimes fn with
  | none =>
    rw [hmt] at h
    simp at h
  | some ondisk =>
    rw [hmt] at h
    dsimp only at h ⊢
    by_cases hm : missCond (validateEntry ondisk
        (alookup (cacheFn u sub st).1 title)) = true
    · rw [if_pos hm] at h ⊢
      obtain ⟨hcd, hmtimes⟩ := missPath_success_state h
      refine ⟨_, _, ⟨some ondisk, some v⟩, hcd, alookup_aset_self _ _ _,
        alookup_aset_self _ _ _, rfl, ?_⟩
      rw [hmtimes]
      simpa using hmt
    · rw [if_neg hm] at h ⊢
      dsimp only at h ⊢
      cases halo : alookup (cacheFn u sub st).1 title with
      | none =>
        rw [halo] at h
        simp [validateEntry] at h
      | some e0 =>
        rw [halo] at h hm
        by_cases htr : e0.truthy = true
        · by_cases hmm : ondisk ≠ e0.mtime.getD 0
          · simp [validateEntry, htr, hmm] at h
          · push_neg at hmm
            refine ⟨store1, (cacheFn u sub st).1, e0, hst1, hreg1, halo,
              ?_, ?_⟩
            · simpa [validateEntry, htr, hmm] using h
            · rw [hmt, hmm]
        · exfalso
          apply hm
          simp [validateEntry, missCond, htr]

/-- C1 (amended): for a fixed (subsection, title, filename) triple under
an unchanged file mtime, once a call returns a (non-sentinel) value,
every later sequential call returns the same value without invoking the
compute function again.  (The original "at most once" fails when the
compute function returns the `None` sentinel, which is never cached; see
the counterexample.) -/
theorem c1_idempotent_after_success {V : Type} {u : Bool} {now now2 : ℚ}
    {sub title fn : String} {func func2 : Except Unit (Option V)}
    {fm fm2 : Option String} {st : St V} {v : V}
    (h : (cached_data_for_file u now sub title fn func fm st).1 =
      Except.ok (some v)) :
    (cached_data_for_file u now2 sub title fn func2 fm2
        (cached_data_for_file u now sub title fn func fm st).2).1 =
      Except.ok (some v) ∧
    (cached_data_for_file u now2 sub title fn func2 fm2
        (cached_data_for_file u now sub title fn func fm st).2).2.funcCalls
      = (cached_data_for_file u now sub title fn func fm st).2.funcCalls
      := by
  obtain ⟨store, sec, e, hc, hs, he, hv, hm⟩ := cached_success_state h
  rw [cached_hit hc hs he hv hm]
  exact ⟨rfl, rfl⟩

/-- Witness for the amended C1: a successful first call followed by a
second call whose (different) compute function is never consulted. -/
theorem c1_idempotent_after_success_witness :
    (cached_data_for_file false 1 "hashes" "model" "f"
        (Except.ok (some "zzz")) none
        (cached_data_for_file false 0 "hashes" "model" "f"
          (Except.ok (some "abc")) none exSt).2).1 =
      Except.ok (some "abc") ∧
    (cached_data_for_file false 1 "hashes" "model" "f"
        (Except.ok (some "zzz")) none
        (cached_data_for_file false 0 "hashes" "model" "f"
          (Except.ok (some "abc")) none exSt).2).2.funcCalls =
      (cached_data_for_file false 0 "hashes" "model" "f"
        (Except.ok (some "abc")) none exSt).2.funcCalls :=
  c1_idempotent_after_success (by decide)

/-- C1 counterexample: with a compute function that returns the `None`
sentinel, two sequential calls on a fixed (subsection, title, filename)
triple with unchanged mtime invoke the function twice — the sentinel is
never cached — refuting "at most once" as stated.  (Both calls do return
the same value, the sentinel.) -/
theorem c1_at_most_once_counterexample :
    (cached_data_for_file false 1 "hashes" "model" "f"
        (Except.ok (none : Option String)) none
        (cached_data_for_file false 0 "hashes" "model" "f"
          (Except.ok (none : Option String)) none exSt).2).2.funcCalls
      = 2 ∧
    (cached_data_for_file false 0 "hashes" "model" "f"
        (Except.ok (none : Option String)) none exSt).1 = Except.ok none ∧
    (cached_data_for_file false 1 "hashes" "model" "f"
        (Except.ok (none : Option String)) none
        (cached_data_for_file false 0 "hashes" "model" "f"
          (Except.ok (none : Option String)) none exSt).2).1 =
      Except.ok none := by
  decide

/-! ### The debounce property -/

theorem markTimes_cons_mark (t : ℚ) (l : List DEv) :
    markTimes (DEv.mark t :: l) = t :: markTimes l := by
  simp [markTimes, List.filterMap_cons]

theorem markTimes_cons_poll (t : ℚ) (l : List DEv) :
    markTimes (DEv.poll t :: l) = markTimes l := by
  simp [markTimes, List.filterMap_cons]

theorem mem_of_markTimes {l : List DEv} {t : ℚ} (h : t ∈ markTimes l) :
    DEv.mark t ∈ l := by
  induction l with
  | nil => cases h
  | cons e rest ih =>
    cases e with
    | mark s =>
      rw [markTimes_cons_mark] at h
      rcases List.mem_cons.mp h with h1 | h1
      · subst h1; exact List.mem_cons_self _ _
      · exact List.mem_cons_of_mem _ (ih h1)
    | poll s =>
      rw [markTimes_cons_poll] at h
      exact List.mem_cons_of_mem _ (ih h)

/-- After the write fires, a trace with no further `dump_cache()` calls
leaves the state alone: polls find no thread running. -/
theorem dfold_polls_inert {a : Option ℚ} {ws : List ℚ}
    (tr : List DEv) (h : markTimes tr = []) :
    tr.foldl dstep ⟨a, false, ws⟩ = ⟨a, false, ws⟩ := by
  induction tr with
  | nil => rfl
  | cons e rest ih =>
    cases e with
    | mark t => rw [markTimes_cons_mark] at h; cases h
    | poll t =>
      rw [markTimes_cons_poll] at h
      rw [List.foldl_cons]
      exact ih h

/-- The main burst invariant: a running writer thread whose deadline is
`m + 5` (with `m` the latest mark so far, all marks within the window of
the final mark `M`) performs exactly one write, at the first poll at or
past the deadline, which is at or past `M + 5`. -/
theorem dfold_burst (tr : List DEv) (m : ℚ) (ws : List ℚ) (M : ℚ)
    (hsort : tr.Pairwise (fun a b => a.time ≤ b.time))
    (hlo : ∀ e ∈ tr, m ≤ e.time)
    (hub : ∀ t ∈ markTimes tr, t ≤ M)
    (hwin : ∀ t ∈ markTimes tr, M < t + 5)
    (hm : m ≤ M) (hmwin : M < m + 5)
    (hlast : M = m ∨ M ∈ markTimes tr)
    (hpoll : ∃ p, DEv.poll p ∈ tr ∧ M + 5 ≤ p) :
    ∃ w, tr.foldl dstep ⟨some (m + 5), true, ws⟩ =
      ⟨none, false, ws ++ [w]⟩ ∧ M + 5 ≤ w := by
  cases tr with
  | nil =>
    obtain ⟨p, hp, -⟩ := hpoll
    cases hp
  | cons e rest =>
    obtain ⟨hhead, hrest⟩ := List.pairwise_cons.mp hsort
    cases e with
    | mark t =>
      have htM : t ∈ markTimes (DEv.mark t :: rest) := by
        rw [markTimes_cons_mark]; exact List.mem_cons_self _ _
      have hub' : ∀ t' ∈ markTimes rest, t' ≤ M := fun t' ht' =>
        hub t' (by rw [markTimes_cons_mark]; exact List.mem_cons_of_mem _ ht')
      have hwin' : ∀ t' ∈ markTimes rest, M < t' + 5 := fun t' ht' =>
        hwin t' (by rw [markTimes_cons_mark]; exact List.mem_cons_of_mem _ ht')
      have hlast' : M = t ∨ M ∈ markTimes rest := by
        rcases hlast with hMm | hMin
        · left
          have h1 : t ≤ M := hub t htM
          have h2 : m ≤ t := hlo (DEv.mark t) (List.mem_cons_self _ _)
          exact (le_antisymm h1 (hMm ▸ h2)).symm
        · rw [markTimes_cons_mark] at hMin
          exact List.mem_cons.mp hMin
      have hpoll' : ∃ p, DEv.poll p ∈ rest ∧ M + 5 ≤ p := by
        obtain ⟨p, hp, hle⟩ := hpoll
        rcases List.mem_cons.mp hp with hh | hh
        · simp at hh
        · exact ⟨p, hh, hle⟩
      have hstep : dstep ⟨some (m + 5), true, ws⟩ (DEv.mark t) =
          ⟨some (t + 5), true, ws⟩ := rfl
      rw [List.foldl_cons, hstep]
      exact dfold_burst rest t ws M hrest hhead hub' hwin' (hub t htM)
        (hwin t htM) hlast' hpoll'
    | poll t =>
      have hub' : ∀ t' ∈ markTimes rest, t' ≤ M := fun t' ht' =>
        hub t' (by rw [markTimes_cons_poll]; exact ht')
      have hwin' : ∀ t' ∈ markTimes rest, M < t' + 5 := fun t' ht' =>
        hwin t' (by rw [markTimes_cons_poll]; exact ht')
      by_cases hlt : t < m + 5
      · have hstep : dstep ⟨some (m + 5), true, ws⟩ (DEv.poll t) =
            ⟨some (m + 5), true, ws⟩ := by
          simp [dstep, hlt]
        have hlast' : M = m ∨ M ∈ markTimes rest := by
          rcases hlast with h | h
          · exact Or.inl h
          · rw [markTimes_cons_poll] at h; exact Or.inr h
        have hpoll' : ∃ p, DEv.poll p ∈ rest ∧ M + 5 ≤ p := by
          obtain ⟨p, hp, hle⟩ := hpoll
          rcases List.mem_cons.mp hp with hh | hh
          · exfalso
            have hpt : p = t := by injection hh
            have h1 : M + 5 ≤ t := hpt ▸ hle
            linarith
          · exact ⟨p, hh, hle⟩
        rw [List.foldl_cons, hstep]
        exact dfold_burst rest m ws M hrest
          (fun e he => hlo e (List.mem_cons_of_mem _ he)) hub' hwin' hm
          hmwin hlast' hpoll'
      · push_neg at hlt
        have hnotlt : ¬ (t < m + 5) := not_lt.mpr hlt
        have hstep : dstep ⟨some (m + 5), true, ws⟩ (DEv.poll t) =
            ⟨none, false, ws ++ [t]⟩ := by
          simp [dstep, hnotlt]
        have hnomark : markTimes rest = [] := by
          cases hmr : markTimes rest with
          | nil => rfl
          | cons t' ts =>
            exfalso
            have ht' : t' ∈ markTimes rest := by
              rw [hmr]; exact List.mem_cons_self _ _
            have hmem := mem_of_markTimes ht'
            have h1 : t ≤ (DEv.mark t').time := hhead _ hmem
            have h2 : t' ≤ M := hub' t' ht'
            have h3 : t ≤ t' := h1
            linarith
        have hMm : M = m := by
          rcases hlast with h | h
          · exact h
          · exfalso
            rw [markTimes_cons_poll, hnomark] at h
            cases h
        refine ⟨t, ?_, ?_⟩
        · rw [List.foldl_cons, hstep]
          exact dfold_polls_inert rest hnomark
        · rw [hMm]; exact hlt

/-- C4: for every burst of N ≥ 1 `dump_cache()` calls, all falling
within a 5-second window ending at the last call's time `M`, interleaved
in time order with the writer thread's polls, and with the thread
polling at least once at or after `M + 5`, the run performs exactly one
snapshot write, and that write occurs no earlier than 5 seconds after
the last call of the burst. -/
theorem c4_debounce_coalescing (tr : List DEv) (M : ℚ)
    (hsort : tr.Pairwise (fun a b => a.time ≤ b.time))
    (hM : M ∈ markTimes tr)
    (hub : ∀ t ∈ markTimes tr, t ≤ M)
    (hwin : ∀ t ∈ markTimes tr, M < t + 5)
    (hpoll : ∃ p, DEv.poll p ∈ tr ∧ M + 5 ≤ p) :
    ∃ w, drun tr = ⟨none, false, [w]⟩ ∧ M + 5 ≤ w := by
  induction tr with
  | nil => cases hM
  | cons e rest ih =>
    obtain ⟨hhead, hrest⟩ := List.pairwise_cons.mp hsort
    cases e with
    | poll t =>
      rw [markTimes_cons_poll] at hM hub hwin
      have hstep : dstep ⟨none, false, []⟩ (DEv.poll t) =
          ⟨none, false, []⟩ := rfl
      rw [drun, List.foldl_cons, hstep]
      have hpoll' : ∃ p, DEv.poll p ∈ rest ∧ M + 5 ≤ p := by
        obtain ⟨p, hp, hle⟩ := hpoll
        rcases List.mem_cons.mp hp with hh | hh
        · exfalso
          have hpt : p = t := by injection hh
          have hmem := mem_of_markTimes hM
          have h1 : t ≤ (DEv.mark M).time := hhead _ hmem
          have h2 : M + 5 ≤ t := hpt ▸ hle
          have h3 : t ≤ M := h1
          linarith
        · exact ⟨p, hh, hle⟩
      exact ih hrest hM hub hwin hpoll'
    | mark t =>
      have htM : t ∈ markTimes (DEv.mark t :: rest) := by
        rw [markTimes_cons_mark]; exact List.mem_cons_self _ _
      have hub' : ∀ t' ∈ markTimes rest, t' ≤ M := fun t' ht' =>
        hub t' (by rw [markTimes_cons_mark]; exact List.mem_cons_of_mem _ ht')
      have hwin' : ∀ t' ∈ markTimes rest, M < t' + 5 := fun t' ht' =>
        hwin t' (by rw [markTimes_cons_mark]; exact List.mem_cons_of_mem _ ht')
      have hlast' : M = t ∨ M ∈ markTimes rest := by
        rw [markTimes_cons_mark] at hM
        exact List.mem_cons.mp hM
      have hpoll' : ∃ p, DEv.poll p ∈ rest ∧ M + 5 ≤ p := by
        obtain ⟨p, hp, hle⟩ := hpoll
        rcases List.mem_cons.mp hp with hh | hh
        · simp at hh
        · exact ⟨p, hh, hle⟩
      have hstep : dstep ⟨none, false, []⟩ (DEv.mark t) =
          ⟨some (t + 5), true, []⟩ := rfl
      rw [drun, List.foldl_cons, hstep]
      obtain ⟨w, hw, hle⟩ := dfold_burst rest t [] M hrest hhead hub' hwin'
        (hub t htM) (hwin t htM) hlast' hpoll'
      exact ⟨w, by simpa using hw, hle⟩

/-- Witness for C4: marks at times 0 and 3 (window of width 3 < 5),
polls at 4 (too early) and 9; exactly one write happens, at time 9 ≥
3 + 5. -/
theorem c4_debounce_coalescing_witness :
    drun [DEv.mark 0, DEv.mark 3, DEv.poll 4, DEv.poll 9] =
      ⟨none, false, [9]⟩ ∧ ((3 : ℚ) + 5 ≤ 9) := by
  obtain ⟨w, hw, hle⟩ := c4_debounce_coalescing
    [DEv.mark 0, DEv.mark 3, DEv.poll 4, DEv.poll 9] 3
    (by norm_num [List.pairwise_cons, DEv.time])
    (by norm_num [markTimes_cons_mark, markTimes_cons_poll])
    (by
      intro t ht
      simp [markTimes_cons_mark, markTimes_cons_poll, markTimes] at ht
      rcases ht with rfl | rfl <;> norm_num)
    (by
      intro t ht
      simp [markTimes_cons_mark, markTimes_cons_poll, markTimes] at ht
      rcases ht with rfl | rfl <;> norm_num)
    ⟨9, by simp, by norm_num⟩
  refine ⟨?_, by norm_num⟩
  have h9 : drun [DEv.mark 0, DEv.mark 3, DEv.poll 4, DEv.poll 9] =
      ⟨none, false, [9]⟩ := by
    norm_num [drun, dstep, List.foldl_cons, List.foldl_nil]
  exact h9

end WebuiCache
